import Mathlib

/-!
Verification of the crystalbot exchange state mirror and quoting layer.

The definitions below are a shallow embedding of the TypeScript sources:
`src/lib/src/exchange/Exchange.ts` (the exchange state mirror, simulation
mode), the `Balance`/`Ticker`/`Candle` value types, the Guéant quoting module
(`computeQuote`), and the drawdown guard of
`src/job/src/jobs/UpdateTradingAgent.ts`.

Conventions of the embedding:
- JavaScript numbers that only undergo field arithmetic (prices, amounts,
  fees, balances) are modelled as `ℚ`; timestamps as `ℤ`.
- The quoting module uses `sqrt`/`log`/`pow`, so it is modelled over `ℝ`.
- JavaScript objects used as string-keyed dictionaries are modelled as
  association lists `List (String × α)` with `Smap.find?` / `Smap.insert` /
  `Smap.erase`.
- `undefined`/optional values are `Option`; a thrown exception is
  `Except.error`.  In the source every `throw` of the embedded operations
  happens before the first mutation of `_state`, so returning an error
  without a state faithfully represents the post-throw state.
- The mirror is embedded in simulation mode (`_state.simulation = true`,
  no remote `_exchange`): the remote branches of `createOrder`,
  `cancelOrder`, `syncOrders`, `syncOrderBook` are skipped exactly as the
  source skips them, and `syncOrders` returns `true` without touching state.
- Results of remote calls that do run in simulation
  (`retrieveLatestCandle`) are supplied as oracle parameters.
-/

namespace CrystalBot

/-! ## String-keyed maps (JavaScript objects used as dictionaries) -/

namespace Smap

/-- Lookup of the first binding of a key in an association list. -/
def find? (m : List (String × α)) (k : String) : Option α :=
  match m with
  | [] => none
  | (k', v) :: rest => if k' = k then some v else find? rest k

/-- Replace the binding of a key, or append it when absent
(assignment `obj[k] = v` on a JavaScript object). -/
def insert (m : List (String × α)) (k : String) (v : α) : List (String × α) :=
  match m with
  | [] => [(k, v)]
  | (k', v') :: rest => if k' = k then (k, v) :: rest else (k', v') :: insert rest k v

/-- Delete every binding of a key (`delete obj[k]`). -/
def erase (m : List (String × α)) (k : String) : List (String × α) :=
  m.filter (fun kv => kv.1 ≠ k)

theorem find?_insert_self (m : List (String × α)) (k : String) (v : α) :
    find? (insert m k v) k = some v := by
  induction m with
  | nil => simp [find?, insert]
  | cons kv rest ih =>
    by_cases h : kv.1 = k
    · simp [insert, h, find?]
    · simp [insert, h, find?, ih]

theorem find?_insert_ne (m : List (String × α)) (k k' : String) (v : α) (h : k ≠ k') :
    find? (insert m k v) k' = find? m k' := by
  induction m with
  | nil => simp [find?, insert, h]
  | cons kv rest ih =>
    by_cases hk : kv.1 = k
    · simp [insert, hk, find?, h]
    · simp only [insert, if_neg hk, find?]
      by_cases hk' : kv.1 = k'
      · simp [hk']
      · simp [hk', ih]

theorem find?_erase_self (m : List (String × α)) (k : String) :
    find? (erase m k) k = none := by
  induction m with
  | nil => simp [find?, erase]
  | cons kv rest ih =>
    by_cases h : kv.1 = k
    · simpa [erase, h] using ih
    · simpa [erase, find?, h] using ih

theorem find?_erase_ne (m : List (String × α)) (k k' : String) (h : k ≠ k') :
    find? (erase m k) k' = find? m k' := by
  induction m with
  | nil => simp [find?, erase]
  | cons kv rest ih =>
    simp only [erase, List.filter_cons] at ih ⊢
    by_cases hk : kv.1 = k
    · rw [if_neg (by simp [hk])]
      rw [ih, find?, if_neg (by rw [hk]; exact h)]
    · rw [if_pos (by simp [hk])]
      simp only [find?]
      by_cases hk' : kv.1 = k'
      · simp [hk']
      · simp only [if_neg hk']
        exact ih

theorem find?_filter_keep (m : List (String × α)) (k : String) (v : α)
    (p : String × α → Bool)
    (hfind : find? m k = some v) (hp : p (k, v) = true) :
    find? (m.filter p) k = some v := by
  induction m with
  | nil => simp [find?] at hfind
  | cons kv rest ih =>
    by_cases hk : kv.1 = k
    · simp only [find?, if_pos hk] at hfind
      obtain ⟨k0, v0⟩ := kv
      cases hfind
      subst hk
      simp [List.filter, hp, find?]
    · simp only [find?, if_neg hk] at hfind
      by_cases hpkv : p kv = true
      · simpa [List.filter, hpkv, find?, hk] using ih hfind
      · simp only [List.filter]
        rw [Bool.not_eq_true] at hpkv
        simpa [hpkv] using ih hfind

end Smap

/-! ## Value types: Balance, Ticker, Candle, orders -/

/-- Raw balance entry as stored in `_state.balances` (source `IBalance`). -/
structure Balance where
  free : ℚ
  used : ℚ
  deriving DecidableEq, Repr

/-- Ticker snapshot (source `Ticker`, a 6-tuple). -/
structure Ticker where
  timestamp : ℤ
  bid : ℚ
  ask : ℚ
  last : ℚ
  baseVolume : ℚ
  quoteVolume : ℚ
  deriving DecidableEq, Repr

/-- OHLCV candle (source `Candle`).  The `open` channel is named `openP`
because `open` is a Lean keyword. -/
structure Candle where
  timestamp : ℤ
  openP : ℚ
  high : ℚ
  low : ℚ
  close : ℚ
  volume : ℚ
  deriving DecidableEq, Repr

/-- Order side (source enum `OrderSide`, literals "buy" / "sell"). -/
inductive OrderSide where
  | buy
  | sell
  deriving DecidableEq, Repr

/-- Order type (source enum `OrderType`, literals "limit" / "market"). -/
inductive OrderType where
  | limit
  | market
  deriving DecidableEq, Repr

/-- Order record (source `IOrder`).  `autoCancelAtPriceLevel` is `WithTop ℚ`
because the source default for buy orders is `Infinity`. -/
structure Order where
  id : String
  timestamp : ℤ
  timestampClosed : Option ℤ
  status : String
  market : String
  type : OrderType
  side : OrderSide
  price : ℚ
  amount : ℚ
  fee : ℚ
  filled : ℚ
  remaining : ℚ
  autoCancel : Option ℤ
  autoCancelAtFillPercentage : ℚ
  autoCancelAtPriceLevel : WithTop ℚ
  sticky : Bool
  deriving DecidableEq

/-- Level-2 order book: lists of (price, amount) pairs
(source `IOrderBook`). -/
structure OrderBook where
  bids : List (ℚ × ℚ)
  asks : List (ℚ × ℚ)
  deriving DecidableEq

/-- The persistent mirror state (source `IExchangeState`, restricted to the
fields the embedded operations read or write). -/
structure ExchangeState where
  simulation : Bool
  lockdown : Bool
  forceAutoCancel : Bool
  fee : ℚ
  fiatCurrency : String
  reserves : List (String × ℚ)
  minDealAmounts : List (String × ℚ)
  cancelledOrders : List (String × Order)
  closedOrders : List (String × Order)
  openOrders : List (String × Order)
  balances : List (String × Balance)
  tickers : List (String × Ticker)
  orderBooks : List (String × OrderBook)
  trades : List (String × List (ℚ × ℚ))
  deriving DecidableEq

/-- JavaScript `Math.min` on rationals, written with an explicit test so
that it evaluates inside the kernel. -/
def jmin (a b : ℚ) : ℚ := if a ≤ b then a else b

/-- JavaScript `Math.max` on rationals. -/
def jmax (a b : ℚ) : ℚ := if a ≤ b then b else a

theorem jmin_eq_min (a b : ℚ) : jmin a b = min a b := by
  simp [jmin, min_def]

theorem jmax_eq_max (a b : ℚ) : jmax a b = max a b := by
  rw [jmax, max_def]

namespace Exchange

/-- Slippage applied to simulated market orders (source member `_slippage`). -/
def slippage : ℚ := 1 / 100

/-- JavaScript `market.split("/")`, computed on the character list so that
it evaluates inside the kernel. -/
def splitSlash (market : String) : List String :=
  (market.toList.splitOn '/').map List.asString

/-- Base currency of a market string, `market.split("/")[0]`. -/
def baseCurrency (market : String) : String :=
  (splitSlash market).getD 0 ""

/-- Quote currency of a market string, `market.split("/")[1]`. -/
def quoteCurrency (market : String) : String :=
  (splitSlash market).getD 1 ""

/-- Raw stored balance of a currency; a missing entry reads as zero, which is
observationally the entry the source lazily creates. -/
def rawBal (s : ExchangeState) (c : String) : Balance :=
  (Smap.find? s.balances c).getD ⟨0, 0⟩

/-- Configured reserve of a currency (source `getReserve`). -/
def reserveOf (s : ExchangeState) (c : String) : ℚ :=
  (Smap.find? s.reserves c).getD 0

/-- The `free` a `Balance` object exposes: `getBalance` sets
`locked = min(reserve, free)` and the getter returns
`max(0, free - locked)` (source `getBalance` and class `Balance`). -/
def balFree (s : ExchangeState) (c : String) : ℚ :=
  let b := rawBal s c
  jmax 0 (b.free - jmin (reserveOf s c) b.free)

/-- Writes a currency's raw balance entry. -/
def setBal (s : ExchangeState) (c : String) (b : Balance) : ExchangeState :=
  { s with balances := Smap.insert s.balances c b }

/-- Source `_deposit`: `free += amount`. -/
def deposit (s : ExchangeState) (c : String) (amount : ℚ) : ExchangeState :=
  let b := rawBal s c
  setBal s c ⟨b.free + amount, b.used⟩

/-- Source `_withdraw`: `free -= amount`. -/
def withdraw (s : ExchangeState) (c : String) (amount : ℚ) : ExchangeState :=
  let b := rawBal s c
  setBal s c ⟨b.free - amount, b.used⟩

/-- Source `_withdrawFromUsed`: `used -= amount`. -/
def withdrawFromUsed (s : ExchangeState) (c : String) (amount : ℚ) : ExchangeState :=
  let b := rawBal s c
  setBal s c ⟨b.free, b.used - amount⟩

/-- Source `_reserve`: clamp the amount to `max(free - reserve, 0)`, then move
it from `free` to `used`. -/
def reserve (s : ExchangeState) (c : String) (amount : ℚ) : ExchangeState :=
  let b := rawBal s c
  let amt := jmin amount (jmax (b.free - reserveOf s c) 0)
  setBal s c ⟨b.free - amt, b.used + amt⟩

/-- Source `_release`: clamp the amount to `used`, then move it from `used`
to `free`. -/
def release (s : ExchangeState) (c : String) (amount : ℚ) : ExchangeState :=
  let b := rawBal s c
  let amt := jmin amount b.used
  setBal s c ⟨b.free + amt, b.used - amt⟩

/-- Sum `free + used` of the raw stored balance of a currency. -/
def totalOf (s : ExchangeState) (c : String) : ℚ :=
  (rawBal s c).free + (rawBal s c).used

/-- Source `getMinDealAmount` in simulation (no remote `_exchange`): a
truthy entry of `minDealAmounts` wins, otherwise the default 1. -/
def getMinDealAmount (s : ExchangeState) (market : String) : ℚ :=
  match Smap.find? s.minDealAmounts market with
  | some v => if v = 0 then 1 else v
  | none => 1

/-- Source `getTicker` applied to an optional market argument: looking a
ticker up under the `undefined` key never succeeds. -/
def getTickerOpt (s : ExchangeState) (market : Option String) : Option Ticker :=
  market.bind (Smap.find? s.tickers)

/-- Truthiness of a JavaScript optional numeric `autoCancel` value:
`undefined` and `0` are falsy. -/
def acTruthy : Option ℤ → Bool
  | none => false
  | some a => a ≠ 0

/-- Options accepted by `createOrder` (source `ICreateOrderOptions`);
`none` fields are the ones the caller leaves `undefined`. -/
structure CreateOrderOptions where
  market : String
  type : OrderType
  side : OrderSide
  amount : ℚ
  price : Option ℚ
  autoCancel : Option ℤ
  autoCancelAtFillPercentage : Option ℚ
  autoCancelAtPriceLevel : Option (WithTop ℚ)
  sticky : Option Bool
  deriving DecidableEq

/-- Source `createOrder`, simulation path.  `now` is `this.currentTime` and
`newId` the result of `_generateOrderId()`.  Returns the updated state and
the stored order.  Mirrors the source exactly: ticker lookup first (throws
when the market has no ticker), then defaults, the lockdown and
force-auto-cancel rejections, the market-order price override, the amount
and price validation, the buy/sell amount clamp against the exposed free
balance, the reservation (limit) or the immediate settlement with fee and
slippage (market), and finally the insertion into `openOrders`
(limit) or `closedOrders` (market).  Note that only the `amount` field of
the stored order is clamped; `remaining` and `fee` keep the requested
amount, as in the source. -/
def createOrder (s : ExchangeState) (now : ℤ) (newId : String)
    (o : CreateOrderOptions) : Except String (ExchangeState × Order) :=
  match Smap.find? s.tickers o.market with
  | none => .error "Unable to retrieve ticker for market"
  | some ticker =>
    let price0 := o.price.getD (if o.side = .buy then ticker.bid else ticker.ask)
    let sticky0 := o.sticky.getD false
    let acfp := o.autoCancelAtFillPercentage.getD 1
    let acpl := o.autoCancelAtPriceLevel.getD
      (if o.side = .buy then (⊤ : WithTop ℚ) else ((0 : ℚ) : WithTop ℚ))
    if s.lockdown then .error "Exchange is in lockdown mode."
    else if ¬ acTruthy o.autoCancel ∧ s.forceAutoCancel then
      .error "Autocancel value is obligatory."
    else
      let sticky1 := if o.type = .market then false else sticky0
      let price := if o.type = .market
        then (if o.side = .buy then ticker.ask else ticker.bid)
        else price0
      if o.amount ≤ 0 then .error "Order amount should be positive"
      else if price ≤ 0 then .error "Order should have a valid price"
      else
        let quoteC := quoteCurrency o.market
        let baseC := baseCurrency o.market
        let order0 : Order :=
          { id := newId
            timestamp := now
            timestampClosed := none
            status := "open"
            market := o.market
            type := o.type
            side := o.side
            price := price
            amount := o.amount
            fee := o.amount * s.fee
            filled := 0
            remaining := o.amount
            autoCancel := o.autoCancel
            autoCancelAtFillPercentage := acfp
            autoCancelAtPriceLevel := acpl
            sticky := sticky1 }
        let clampedAmount :=
          if o.side = .buy then jmin (price * o.amount) (balFree s quoteC) / price
          else jmin (balFree s baseC) o.amount
        let order1 := { order0 with amount := clampedAmount }
        let s1 :=
          if o.side = .buy then
            if o.type = .limit then reserve s quoteC (clampedAmount * price)
            else
              deposit (withdraw s quoteC (o.amount * price)) baseC
                (o.amount * (1 - s.fee) * (1 - slippage))
          else
            if o.type = .limit then reserve s baseC clampedAmount
            else
              deposit (withdraw s baseC o.amount) quoteC
                (price * o.amount * (1 - s.fee) * (1 - slippage))
        let s2 :=
          if o.type = .market then
            { s1 with closedOrders := Smap.insert s1.closedOrders order1.id order1 }
          else
            { s1 with openOrders := Smap.insert s1.openOrders order1.id order1 }
        .ok (s2, order1)

/-- Source `cancelOrder`, simulation path.  Both rejections happen before
the first state mutation, so an error leaves the mirror untouched.  On
success the reserved currency is released, the order is added to
`cancelledOrders`, additionally added to `closedOrders` with
`timestampClosed = now` when it has a positive fill (the source mutates the
shared order object, so the cancelled record carries the same timestamp),
and removed from `openOrders`. -/
def cancelOrder (s : ExchangeState) (now : ℤ) (order : Order) :
    Except String ExchangeState :=
  if s.lockdown then .error "Exchange is in lockdown mode."
  else if order.status ≠ "open" then
    .error "Cannot cancel orders that are already closed."
  else
    let quoteC := quoteCurrency order.market
    let baseC := baseCurrency order.market
    let s1 :=
      if order.side = .buy then release s quoteC (order.price * order.amount)
      else release s baseC order.amount
    let order1 := if 0 < order.filled
      then { order with timestampClosed := some now } else order
    .ok { s1 with
            cancelledOrders := Smap.insert s1.cancelledOrders order.id order1
            closedOrders := if 0 < order.filled
              then Smap.insert s1.closedOrders order.id order1
              else s1.closedOrders
            openOrders := Smap.erase s1.openOrders order.id }

/-- Source `getOpenOrders`: the values of `openOrders`, filtered by market,
side and a custom predicate. -/
def getOpenOrders (s : ExchangeState) (market : Option String)
    (side : Option OrderSide) (f : Order → Bool) : List Order :=
  (s.openOrders.map Prod.snd).filter (fun o =>
    (match market with | some m => o.market = m | none => true) &&
    (match side with | some sd => o.side = sd | none => true) &&
    f o)

/-- Source `_checkFullfillOrder` (simulation fulfillment of one limit
order).  `latestCandle` is the oracle result of
`retrieveLatestCandle(order.market)`.  A buy fills when the candle traded
(`volume > 0`), is newer than the order, and `candle.low < price`; a sell
symmetrically when `candle.high > price`.  On a buy fill the source also
sets `timestampClosed`; on a sell fill it does not - the embedding
reproduces that asymmetry. -/
def checkFullfillOrder (s : ExchangeState) (now : ℤ)
    (latestCandle : Option Candle) (order : Order) : ExchangeState :=
  if order.type ≠ .limit then s
  else
    match latestCandle with
    | none => s
    | some candle =>
      if candle.volume ≤ 0 ∨ candle.timestamp ≤ order.timestamp then s
      else if order.side = .buy ∧ candle.low < order.price then
        let s1 := withdrawFromUsed s (quoteCurrency order.market)
          (order.amount * order.price)
        let s2 := deposit s1 (baseCurrency order.market)
          (order.amount * (1 - s.fee))
        let order1 := { order with
          status := "closed", filled := order.amount, remaining := 0,
          timestampClosed := some now }
        { s2 with
            openOrders := Smap.erase s2.openOrders order.id
            closedOrders := Smap.insert s2.closedOrders order.id order1 }
      else if order.side = .sell ∧ order.price < candle.high then
        let s1 := withdrawFromUsed s (baseCurrency order.market) order.amount
        let s2 := deposit s1 (quoteCurrency order.market)
          (order.amount * order.price * (1 - s.fee))
        let order1 := { order with
          status := "closed", filled := order.amount, remaining := 0 }
        { s2 with
            openOrders := Smap.erase s2.openOrders order.id
            closedOrders := Smap.insert s2.closedOrders order.id order1 }
      else s

/-- Source `fulfillLimitOrders`: run the fulfillment check over the open
limit orders.  `candles` is the oracle for `retrieveLatestCandle` per
market; the parallel `Promise.all` is sequentialized in list order. -/
def fulfillLimitOrders (s : ExchangeState) (now : ℤ)
    (candles : String → Option Candle) (market : Option String) : ExchangeState :=
  (getOpenOrders s market none (fun o => o.type = .limit)).foldl
    (fun st o => checkFullfillOrder st now (candles o.market) o) s

/-- The auto-cancel filter of `autoCancelOrders`: age above `autoCancel`,
fill ratio at or above `autoCancelAtFillPercentage`, or the side price
crossing `autoCancelAtPriceLevel`. -/
def shouldAutoCancel (now : ℤ) (ticker : Ticker) (o : Order) : Bool :=
  (acTruthy o.autoCancel && decide (o.timestamp + (o.autoCancel.getD 0) < now)) ||
  decide (o.autoCancelAtFillPercentage * o.amount ≤ o.filled) ||
  (decide (o.side = OrderSide.buy) &&
    decide (o.autoCancelAtPriceLevel < ((ticker.ask : ℚ) : WithTop ℚ))) ||
  (decide (o.side = OrderSide.sell) &&
    decide (((ticker.bid : ℚ) : WithTop ℚ) < o.autoCancelAtPriceLevel))

/-- Source `autoCancelOrders`: the ticker lookup happens unconditionally
before the filter, so a missing ticker (in particular an omitted market
argument) throws; then every matching open order is cancelled, a rejection
of any cancellation rejecting the whole step. -/
def autoCancelOrders (s : ExchangeState) (now : ℤ) (market : Option String) :
    Except String ExchangeState :=
  match getTickerOpt s market with
  | none => .error "Unable to retrieve ticker for market"
  | some ticker =>
    (getOpenOrders s market none (shouldAutoCancel now ticker)).foldlM
      (fun st o => cancelOrder st now o) s

/-- Target price of `_updateStickyOrder` (source lines computing
`newPrice`): default is the ticker's side price; when the book has at least
two levels on the order's side and the order is the sole best
(`remaining >= bestAmount && price === bestPrice`), the second-best level's
price is used instead. -/
def stickyNewPrice (ticker : Ticker) (book : OrderBook) (o : Order) : ℚ :=
  if o.side = .buy then
    match book.bids with
    | (bestBidPrice, bestBidAmount) :: (secondBestBidPrice, _) :: _ =>
      if bestBidAmount ≤ o.remaining ∧ o.price = bestBidPrice
      then secondBestBidPrice else ticker.bid
    | _ => ticker.bid
  else
    match book.asks with
    | (bestAskPrice, bestAskAmount) :: (secondBestAskPrice, _) :: _ =>
      if bestAskAmount ≤ o.remaining ∧ o.price = bestAskPrice
      then secondBestAskPrice else ticker.ask
    | _ => ticker.ask

/-- Source `_updateStickyOrder` (simulation: `syncOrderBook` is a no-op).
The ticker lookup is outside the `try` block, so a missing ticker throws.
When the target price equals the order's price nothing happens.  Otherwise
the order is cancelled, its id removed from `cancelledOrders`, and - when
the residual auto-cancel budget is positive (or the order never had a
truthy `autoCancel`) and `remaining` is at least the minimum deal amount -
a replacement sticky limit order for `remaining` at the new price is
created under `newId`.  Errors thrown by the cancel or create calls are
swallowed by the source's `catch`, leaving the state reached so far. -/
def updateStickyOrder (s : ExchangeState) (now : ℤ) (newId : String)
    (o : Order) : Except String ExchangeState :=
  if ¬ o.sticky then .ok s
  else
    match Smap.find? s.tickers o.market with
    | none => .error "Unable to retrieve ticker for market"
    | some ticker =>
      let book := (Smap.find? s.orderBooks o.market).getD ⟨[], []⟩
      let newPrice := stickyNewPrice ticker book o
      if o.price = newPrice then .ok s
      else
        match cancelOrder s now o with
        | .error _ => .ok s
        | .ok s1 =>
          let s2 := { s1 with cancelledOrders := Smap.erase s1.cancelledOrders o.id }
          let newAutoCancel : Option ℤ :=
            if acTruthy o.autoCancel
            then o.autoCancel.map (fun ac => ac - (now - o.timestamp))
            else none
          if (¬ acTruthy o.autoCancel ∨ 0 < newAutoCancel.getD 0) ∧
              getMinDealAmount s2 o.market ≤ o.remaining then
            match createOrder s2 now newId
              { market := o.market
                type := .limit
                side := o.side
                amount := o.remaining
                price := some newPrice
                autoCancel := newAutoCancel
                autoCancelAtFillPercentage := some o.autoCancelAtFillPercentage
                autoCancelAtPriceLevel := none
                sticky := some true } with
            | .error _ => .ok s2
            | .ok (s3, _) => .ok s3
          else .ok s2

/-- Source `updateStickyOrders`: run the sticky update over the sticky open
orders; `idGen i` is the id generated for the i-th replacement. -/
def updateStickyOrders (s : ExchangeState) (now : ℤ) (idGen : ℕ → String)
    (market : Option String) : Except String ExchangeState :=
  let orders := getOpenOrders s market none (fun o => o.sticky)
  (orders.enum.foldlM (fun st oi => updateStickyOrder st now (idGen oi.1) oi.2) s)

/-- Purge age of `purgeOrderList`: one week in milliseconds. -/
def purgeAge : ℤ := 1000 * 60 * 60 * 24 * 7

/-- Source `purgeOrderList`: drop from `closedOrders` every order of the
given market (every order, when no market is given) whose creation
timestamp is more than a week old, and likewise from `cancelledOrders` -
where the source applies no market filter. -/
def purgeOrderList (s : ExchangeState) (now : ℤ) (market : Option String) :
    ExchangeState :=
  { s with
      closedOrders := s.closedOrders.filter (fun kv =>
        !((match market with | some m => decide (kv.2.market = m) | none => true) &&
          decide (kv.2.timestamp + purgeAge < now)))
      cancelledOrders := s.cancelledOrders.filter (fun kv =>
        !(decide (kv.2.timestamp + purgeAge < now))) }

/-- Source `update`, simulation mode.  `syncOrders` returns `true` without
touching state (simulation), then the fulfillment, auto-cancel, sticky and
purge steps run in order.  The result distinguishes the source's early
`return` on lockdown (`none`), `return false` (`some false`, unreachable in
simulation) and `return true` (`some true`); a thrown exception is
`Except.error`. -/
def update (s : ExchangeState) (now : ℤ) (candles : String → Option Candle)
    (idGen : ℕ → String) (market : Option String) :
    Except String (ExchangeState × Option Bool) :=
  if s.lockdown then .ok (s, none)
  else
    let s1 := if s.simulation then fulfillLimitOrders s now candles market else s
    match autoCancelOrders s1 now market with
    | .error e => .error e
    | .ok s2 =>
      match updateStickyOrders s2 now idGen market with
      | .error e => .error e
      | .ok s3 => .ok (purgeOrderList s3 now market, some true)

/-- Lodash `merge` restricted to ticker maps: every binding of the snapshot
is written over the base map. -/
def lmerge (base snap : List (String × Ticker)) : List (String × Ticker) :=
  snap.foldl (fun acc kv => Smap.insert acc kv.1 kv.2) base

/-- Source `syncTickers` with the fetched snapshot supplied as an oracle.
When a remote exchange is attached, a market of the argument list missing
from the snapshot throws (caught: `false`, state untouched); otherwise the
source assigns `_state.tickers = tickers` and then merges the snapshot into
the object it just assigned, so the local map is replaced by
`lmerge fetched fetched`. -/
def syncTickers (hasRemote : Bool) (s : ExchangeState) (markets : List String)
    (fetched : List (String × Ticker)) : Bool × ExchangeState :=
  if ¬ hasRemote then (true, s)
  else if markets.any (fun m => (Smap.find? fetched m).isNone) then (false, s)
  else (true, { s with tickers := lmerge fetched fetched })

end Exchange

/-! ## Drawdown guard (src/job/src/jobs/UpdateTradingAgent.ts) -/

/-- The fields of the trading agent the drawdown guard reads and writes. -/
structure AgentModel where
  peakMarketAmount : Option ℚ
  maxDrawdown : Option ℚ
  paused : Bool
  deriving DecidableEq, Repr

/-- Payload of the `max_drawdown_reached` event (the opaque `balance` field
is omitted). -/
structure DrawdownEvent where
  peak : ℚ
  currentTotal : ℚ
  deriving DecidableEq, Repr

/-- Source `checkDrawdown`.  `totalBalance` is the oracle result of
`exchange.getTotalBalanceFromMarkets(false, activeMarkets)` (`none` models
the `null` return).  When a total is available the peak is raised to
`max(total, peak || 0)`, the drawdown `(peak - total)/peak` computed (in ℚ
a division by a zero peak yields 0, matching the JavaScript `NaN` which
fails the comparison), and when it strictly exceeds
`maxDrawdown || 0.2` the agent is paused and a `max_drawdown_reached` event
posted with the peak and the current total. -/
def checkDrawdown (agent : AgentModel) (totalBalance : Option ℚ) :
    AgentModel × List DrawdownEvent :=
  match totalBalance with
  | none => (agent, [])
  | some total =>
    let peak := jmax total ((agent.peakMarketAmount.getD 0))
    let drawDown := (peak - total) / peak
    let maxDD := match agent.maxDrawdown with
      | none => 1/5
      | some m => if m = 0 then 1/5 else m
    if maxDD < drawDown then
      ({ agent with peakMarketAmount := some peak, paused := true },
       [⟨peak, total⟩])
    else
      ({ agent with peakMarketAmount := some peak }, [])

/-! ## Guéant quoting (the `computeQuote` module) -/

namespace MarketModel

/-- Per-side market dynamic parameters (source
`IMarketDynamicParameters`). -/
structure MarketDynamicParameters where
  A : ℝ
  k : ℝ

/-- Input of `computeQuote` (source `IMarketModelParameters`). -/
structure MarketModelParameters where
  sigma : ℝ
  mu : ℝ
  gamma : ℝ
  buy : MarketDynamicParameters
  sell : MarketDynamicParameters
  midPrice : ℝ
  inventory : ℝ
  includeDrift : Bool

open Classical in
/-- Source helper `computeTerms`: the (lnTerm, sqrtTerm) pair. -/
noncomputable def computeTerms (sigma gamma k A : ℝ) : ℝ × ℝ :=
  (1 / gamma * Real.log (1 + gamma / k),
   Real.sqrt (max 0 (sigma * sigma * gamma / (2 * k * A)) *
     Real.rpow (1 + gamma / k) (1 + k / gamma)))

open Classical in
/-- Source `computeQuote`.  The sanity check of the source tests JavaScript
truthiness of `sigma`, `gamma` and the four `A`/`k` parameters, i.e. that
none of them is zero; when it fails `{bid: 0, ask: 0}` is returned.
Otherwise the optimal price distances are computed and clamped so that the
bid never exceeds and the ask never undercuts the mid price. -/
noncomputable def computeQuote (p : MarketModelParameters) : ℝ × ℝ :=
  if p.sigma = 0 ∨ p.gamma = 0 ∨ p.buy.A = 0 ∨ p.buy.k = 0 ∨
      p.sell.A = 0 ∨ p.sell.k = 0 then (0, 0)
  else
    let bid := computeTerms p.sigma p.gamma p.buy.k p.buy.A
    let bidMultiplier := (2 * p.inventory + 1) / 2 +
      (if p.includeDrift then -p.mu / (p.gamma * p.sigma * p.sigma) else 0)
    let bidPriceDistance := bid.1 + bidMultiplier * bid.2
    let ask := computeTerms p.sigma p.gamma p.sell.k p.sell.A
    let askMultiplier := -(2 * p.inventory - 1) / 2 +
      (if p.includeDrift then p.mu / (p.gamma * p.sigma * p.sigma) else 0)
    let askPriceDistance := ask.1 + askMultiplier * ask.2
    (min p.midPrice (p.midPrice - bidPriceDistance),
     max p.midPrice (p.midPrice + askPriceDistance))

end MarketModel

/-! ## Balance-accounting lemmas -/

namespace Exchange

theorem rawBal_setBal_self (s : ExchangeState) (c : String) (b : Balance) :
    rawBal (setBal s c b) c = b := by
  simp [rawBal, setBal, Smap.find?_insert_self]

theorem rawBal_setBal_ne (s : ExchangeState) (c c' : String) (b : Balance)
    (h : c ≠ c') : rawBal (setBal s c b) c' = rawBal s c' := by
  simp [rawBal, setBal, Smap.find?_insert_ne _ _ _ _ h]

/-- Source `_reserve` moves value between `free` and `used` of one currency
and touches nothing else: `free + used` is preserved for every currency. -/
theorem totalOf_reserve (s : ExchangeState) (c : String) (amt : ℚ)
    (c' : String) : totalOf (reserve s c amt) c' = totalOf s c' := by
  by_cases h : c = c'
  · subst h
    simp only [totalOf, reserve, rawBal_setBal_self]
    ring
  · simp only [totalOf, reserve, rawBal_setBal_ne _ _ _ _ h]

/-- Source `_release` likewise preserves `free + used` for every currency. -/
theorem totalOf_release (s : ExchangeState) (c : String) (amt : ℚ)
    (c' : String) : totalOf (release s c amt) c' = totalOf s c' := by
  by_cases h : c = c'
  · subst h
    simp only [totalOf, release, rawBal_setBal_self]
    ring
  · simp only [totalOf, release, rawBal_setBal_ne _ _ _ _ h]

theorem totalOf_openOrders_update (s : ExchangeState) (m : List (String × Order))
    (c : String) : totalOf { s with openOrders := m } c = totalOf s c := rfl

/-- Reserves, balances and the reserve map are untouched by record updates
of the order books; `totalOf` only reads `balances` and `reserves`. -/
theorem totalOf_cancelled_update (s : ExchangeState)
    (a b c' : List (String × Order)) (c : String) :
    totalOf { s with cancelledOrders := a, closedOrders := b, openOrders := c' } c
      = totalOf s c := rfl

end Exchange

/-! ## Claim (C1): balance conservation for limit orders in simulation -/

namespace Exchange

/-- Ticker used by the concrete scenarios: bid 100 / ask 101. -/
def sampleTicker : Ticker :=
  { timestamp := 1, bid := 100, ask := 101, last := 100,
    baseVolume := 10, quoteVolume := 1000 }

/-- Simulation-mode state with 200 USDT free, used by the concrete S1
scenario of the claim. -/
def s1State : ExchangeState :=
  { simulation := true, lockdown := false, forceAutoCancel := false
    fee := 1/1000, fiatCurrency := "USDT"
    reserves := [], minDealAmounts := []
    cancelledOrders := [], closedOrders := [], openOrders := []
    balances := [("USDT", { free := 200, used := 0 })]
    tickers := [("BTC/USDT", sampleTicker)]
    orderBooks := [], trades := [] }

/-- Options of the S1 scenario: a limit buy of amount 1 at price 100. -/
def s1Options : CreateOrderOptions :=
  { market := "BTC/USDT", type := .limit, side := .buy, amount := 1
    price := some 100, autoCancel := none, autoCancelAtFillPercentage := none
    autoCancelAtPriceLevel := none, sticky := none }

/-- Order stored by the S1 creation. -/
def s1Order : Order :=
  { id := "orderid", timestamp := 1000, timestampClosed := none
    status := "open", market := "BTC/USDT", type := .limit, side := .buy
    price := 100, amount := 1, fee := 1/1000, filled := 0, remaining := 1
    autoCancel := none, autoCancelAtFillPercentage := 1
    autoCancelAtPriceLevel := ⊤, sticky := false }

/-- State after the S1 creation: 100 USDT reserved. -/
def s1After : ExchangeState :=
  { s1State with
      balances := [("USDT", { free := 100, used := 100 })]
      openOrders := [("orderid", s1Order)] }

/-- State after cancelling the S1 order: reservation released. -/
def s1Back : ExchangeState :=
  { s1State with
      balances := [("USDT", { free := 200, used := 0 })]
      cancelledOrders := [("orderid", s1Order)]
      openOrders := [] }

end Exchange

open Exchange in
/-- C1: in simulation, a successful `createOrder` of a limit order and any
successful `cancelOrder` each preserve `free + used` of every currency's
stored balance, so any sequence of limit-order creations followed by their
cancellations preserves it as well; and in the concrete S1 scenario a limit
buy of 1 at price 100 on 200 free USDT leaves the quote balance at
free 100 / used 100 with an open order of amount 1 at price 100, and
cancelling that order restores free 200 / used 0. -/
theorem createOrder_cancelOrder_conserve_total :
    (∀ (s : ExchangeState) (now : ℤ) (newId : String) (o : CreateOrderOptions)
        (s' : ExchangeState) (ord : Order), o.type = OrderType.limit →
        createOrder s now newId o = .ok (s', ord) →
        ∀ c, totalOf s' c = totalOf s c) ∧
    (∀ (s : ExchangeState) (now : ℤ) (ord : Order) (s' : ExchangeState),
        cancelOrder s now ord = .ok s' →
        ∀ c, totalOf s' c = totalOf s c) ∧
    (∃ sAfter ord sBack,
        createOrder s1State 1000 "orderid" s1Options = .ok (sAfter, ord) ∧
        rawBal sAfter "USDT" = { free := 100, used := 100 } ∧
        ord.amount = 1 ∧ ord.price = 100 ∧
        Smap.find? sAfter.openOrders "orderid" = some ord ∧
        cancelOrder sAfter 2000 ord = .ok sBack ∧
        rawBal sBack "USDT" = { free := 200, used := 0 }) := by
  refine ⟨?_, ?_, ?_⟩
  · intro s now newId o s' ord hlimit hok c
    have hlm : ¬ (OrderType.limit = OrderType.market) := by decide
    simp only [createOrder, hlimit, hlm, if_false, iff_false, eq_self_iff_true,
      if_true] at hok
    -- every error branch is impossible; in the two remaining branches the
    -- limit path reserves on one currency and updates the open orders
    repeat' split at hok
    all_goals
      first
      | exact Except.noConfusion hok
      | (simp only [Except.ok.injEq, Prod.mk.injEq] at hok
         obtain ⟨hs, _⟩ := hok
         subst hs
         rw [totalOf_openOrders_update, totalOf_reserve])
  · intro s now ord s' hok c
    simp only [cancelOrder] at hok
    repeat' split at hok
    all_goals
      first
      | exact Except.noConfusion hok
      | (simp only [Except.ok.injEq] at hok
         subst hok
         rw [totalOf_cancelled_update, totalOf_release])
  · have hq : quoteCurrency "BTC/USDT" = "USDT" := by decide
    have hlm : OrderType.limit ≠ OrderType.market := by decide
    refine ⟨s1After, s1Order, s1Back, ?_, ?_, rfl, rfl, ?_, ?_, ?_⟩ <;>
      norm_num [createOrder, cancelOrder, s1State, s1Options, sampleTicker,
        s1Order, s1After, s1Back, Smap.find?, Smap.insert, Smap.erase, hq, hlm,
        balFree, rawBal, reserveOf, jmin, jmax, reserve, release, setBal,
        acTruthy]

open Exchange in
/-- Witness for C1: the conservation statement instantiated at the concrete
S1 creation, discharging its hypotheses there. -/
theorem createOrder_cancelOrder_conserve_total_witness :
    totalOf s1After "USDT" = totalOf s1State "USDT" :=
  createOrder_cancelOrder_conserve_total.1 s1State 1000 "orderid" s1Options
    s1After s1Order rfl
    (by
      have hq : quoteCurrency "BTC/USDT" = "USDT" := by decide
      have hlm : OrderType.limit ≠ OrderType.market := by decide
      norm_num [createOrder, s1State, s1Options, sampleTicker, s1After, s1Order,
        Smap.find?, Smap.insert, hq, hlm, balFree, rawBal, reserveOf, jmin,
        jmax, reserve, setBal, acTruthy])
    "USDT"

/-! ## Claim (C4): cancelOrder rejections and effects -/

open Exchange in
/-- C4: `cancelOrder` rejects exactly when the exchange is in lockdown or
the order is not open - and since both rejections precede the first state
mutation in the source, a rejection leaves the mirror unchanged.  On
success (simulation) the order's id is in `cancelledOrders`, gone from
`openOrders`, and additionally recorded in `closedOrders` with
`timestampClosed = now` precisely when the order has a positive fill
(otherwise `closedOrders` is untouched). -/
theorem cancelOrder_rejects_iff_and_effects (s : ExchangeState) (now : ℤ)
    (o : Order) :
    ((∃ e, cancelOrder s now o = .error e) ↔
      (s.lockdown = true ∨ o.status ≠ "open")) ∧
    (∀ s', cancelOrder s now o = .ok s' →
      (Smap.find? s'.cancelledOrders o.id).isSome = true ∧
      Smap.find? s'.openOrders o.id = none ∧
      (0 < o.filled → ∃ o', Smap.find? s'.closedOrders o.id = some o' ∧
        o'.timestampClosed = some now) ∧
      (¬ 0 < o.filled → s'.closedOrders = s.closedOrders)) := by
  constructor
  · constructor
    · intro ⟨e, he⟩
      by_cases hld : s.lockdown
      · exact Or.inl hld
      · by_cases hst : o.status = "open"
        · simp only [cancelOrder, hld, hst, ne_eq, not_true_eq_false,
            if_false, ite_false] at he
          exact Except.noConfusion he
        · exact Or.inr hst
    · intro h
      by_cases hld : s.lockdown
      · exact ⟨"Exchange is in lockdown mode.", by simp [cancelOrder, hld]⟩
      · rcases h with h | h
        · exact absurd h hld
        · exact ⟨"Cannot cancel orders that are already closed.",
            by simp [cancelOrder, hld, h]⟩
  · intro s' hok
    by_cases hld : s.lockdown
    · rw [cancelOrder, if_pos hld] at hok
      exact Except.noConfusion hok
    · by_cases hst : o.status = "open"
      · rw [cancelOrder, if_neg hld, if_neg (by simp [hst])] at hok
        injection hok with h
        subst h
        by_cases hfill : 0 < o.filled
        · refine ⟨?_, ?_, fun _ => ⟨{ o with timestampClosed := some now},
            ?_, rfl⟩, fun h => absurd hfill h⟩
          · simp [if_pos hfill, Smap.find?_insert_self]
          · simp [Smap.find?_erase_self]
          · simp [if_pos hfill, Smap.find?_insert_self]
        · refine ⟨?_, ?_, fun h => absurd h hfill, fun _ => ?_⟩
          · simp [if_neg hfill, Smap.find?_insert_self]
          · simp [Smap.find?_erase_self]
          · simp only [if_neg hfill]
            split <;> rfl
      · rw [cancelOrder, if_neg hld, if_pos (by simp [hst])] at hok
        exact Except.noConfusion hok

open Exchange in
/-- Witness for C4: the success effects at the concrete cancellation of the
S1 order. -/
theorem cancelOrder_rejects_iff_and_effects_witness :
    (Smap.find? s1Back.cancelledOrders "orderid").isSome = true ∧
    Smap.find? s1Back.openOrders "orderid" = none :=
  let h := (cancelOrder_rejects_iff_and_effects s1After 2000 s1Order).2 s1Back
    (by
      have hq : quoteCurrency "BTC/USDT" = "USDT" := by decide
      norm_num [cancelOrder, s1State, s1Options, sampleTicker, s1Order, s1After,
        s1Back, Smap.find?, Smap.insert, Smap.erase, hq, rawBal, release,
        setBal, jmin, jmax])
  ⟨h.1, h.2.1⟩

/-! ## Claim (C2): simulated fulfillment of limit orders -/

namespace Exchange

/-- Open limit sell order of the C2 fulfillment scenario: sell 1 at
price 100, placed at time 1000. -/
def c2Order : Order :=
  { id := "sellorder", timestamp := 1000, timestampClosed := none
    status := "open", market := "BTC/USDT", type := .limit, side := .sell
    price := 100, amount := 1, fee := 1/1000, filled := 0, remaining := 1
    autoCancel := none, autoCancelAtFillPercentage := 1
    autoCancelAtPriceLevel := ((0 : ℚ) : WithTop ℚ), sticky := false }

/-- Simulation state holding the open C2 sell order with 1 BTC reserved. -/
def c2State : ExchangeState :=
  { simulation := true, lockdown := false, forceAutoCancel := false
    fee := 1/1000, fiatCurrency := "USDT"
    reserves := [], minDealAmounts := []
    cancelledOrders := [], closedOrders := []
    openOrders := [("sellorder", c2Order)]
    balances := [("BTC", { free := 0, used := 1 })]
    tickers := [("BTC/USDT", sampleTicker)]
    orderBooks := [], trades := [] }

/-- Next candle of the C2 scenario: low 99 / high 101, volume 10, one tick
after the order. -/
def c2Candle : Candle :=
  { timestamp := 2000, openP := 100, high := 101, low := 99, close := 100
    volume := 10 }

end Exchange

open Exchange in
/-- C2 (failing input): the fulfillment conditions hold for the sell order
(`volume > 0`, `order.timestamp < candle.timestamp`,
`candle.high > price`), the order fills - reserved base leaves `used`, the
quote side is credited with the fee applied, the order closes with
`filled = amount` and `remaining = 0` - but `timestampClosed` is NOT set on
the sell path, although the buy path and the specification set it. -/
theorem sell_fill_leaves_timestampClosed_unset :
    Smap.find? (checkFullfillOrder c2State 3000 (some c2Candle) c2Order).closedOrders
        "sellorder" =
      some { c2Order with status := "closed", filled := 1, remaining := 0 } ∧
    { c2Order with
        status := "closed", filled := 1, remaining := 0 }.timestampClosed = none ∧
    Smap.find? (checkFullfillOrder c2State 3000 (some c2Candle) c2Order).openOrders
        "sellorder" = none ∧
    rawBal (checkFullfillOrder c2State 3000 (some c2Candle) c2Order) "BTC" =
      { free := 0, used := 0 } ∧
    rawBal (checkFullfillOrder c2State 3000 (some c2Candle) c2Order) "USDT" =
      { free := 999/10, used := 0 } := by
  have hq : quoteCurrency "BTC/USDT" = "USDT" := by decide
  have hb : baseCurrency "BTC/USDT" = "BTC" := by decide
  have hne : ("BTC" : String) ≠ "USDT" := by decide
  refine ⟨?_, rfl, ?_, ?_, ?_⟩ <;>
    norm_num [checkFullfillOrder, c2State, c2Order, c2Candle, Smap.find?,
      Smap.insert, Smap.erase, hq, hb, hne, rawBal, withdrawFromUsed, deposit,
      setBal]

/-! ## Claim (C5): purgeOrderList -/

namespace Exchange

/-- Closed order of the C5 counterexample: created at time 0, closed at
time 604700000 (well within the last 7 days of the purge instant
604800001). -/
def c5Old : Order :=
  { id := "old", timestamp := 0, timestampClosed := some 604700000
    status := "closed", market := "BTC/USDT", type := .limit, side := .buy
    price := 100, amount := 1, fee := 0, filled := 1, remaining := 0
    autoCancel := none, autoCancelAtFillPercentage := 1
    autoCancelAtPriceLevel := ⊤, sticky := false }

/-- State holding the C5 closed order. -/
def c5State : ExchangeState :=
  { simulation := true, lockdown := false, forceAutoCancel := false
    fee := 0, fiatCurrency := "USDT"
    reserves := [], minDealAmounts := []
    cancelledOrders := [], closedOrders := [("old", c5Old)], openOrders := []
    balances := [], tickers := [("BTC/USDT", sampleTicker)]
    orderBooks := [], trades := [] }

end Exchange

open Exchange in
/-- C5 is false as stated: the order was closed 100001 ms before the purge
instant - its closure does NOT lie more than 7 days in the past - yet
`purgeOrderList` deletes it, because the source compares the CREATION
timestamp (`order.timestamp`), not the closure timestamp, against the
7-day age. -/
theorem purgeOrderList_by_closure_age_counterexample :
    c5Old.timestampClosed = some 604700000 ∧
    604800001 - 604700000 < purgeAge ∧
    Smap.find? c5State.closedOrders "old" = some c5Old ∧
    Smap.find? (purgeOrderList c5State 604800001 none).closedOrders "old" =
      none := by
  refine ⟨rfl, by decide, by decide, by decide⟩

open Exchange in
/-- C5 (amended): `purgeOrderList` removes from the closed-order record
exactly the orders (of the given market, when one is given) whose CREATION
lies more than 7 days before the current time, and from the
cancelled-order record exactly those whose creation lies more than 7 days
back - with no market filter; every other order stays. -/
theorem purgeOrderList_removes_by_creation_age (s : ExchangeState) (now : ℤ)
    (market : Option String) (oid : String) (o : Order) :
    ((oid, o) ∈ (purgeOrderList s now market).closedOrders ↔
      ((oid, o) ∈ s.closedOrders ∧
        ¬ ((match market with | some m => o.market = m | none => True) ∧
           o.timestamp + purgeAge < now))) ∧
    ((oid, o) ∈ (purgeOrderList s now market).cancelledOrders ↔
      ((oid, o) ∈ s.cancelledOrders ∧ ¬ o.timestamp + purgeAge < now)) := by
  constructor
  · rw [purgeOrderList]
    simp only [List.mem_filter]
    apply and_congr_right
    intro _
    cases market with
    | none => simp
    | some m => simp [imp_iff_not_or]
  · rw [purgeOrderList]
    simp only [List.mem_filter]
    apply and_congr_right
    intro _
    simp

open Exchange in
/-- Witness for C5 (amended): a closed order created within the window is
kept by the purge. -/
theorem purgeOrderList_removes_by_creation_age_witness :
    ("old", c5Old) ∈ (purgeOrderList c5State 1000 none).closedOrders :=
  (purgeOrderList_removes_by_creation_age c5State 1000 none "old" c5Old).1.mpr
    ⟨by decide, by decide⟩

/-! ## Claim (C6): syncTickers -/

namespace Exchange

/-- Local-only ticker of the C6 scenario. -/
def c6LocalTicker : Ticker :=
  { timestamp := 1, bid := 5, ask := 6, last := 5, baseVolume := 1,
    quoteVolume := 5 }

/-- Fetched ticker of the C6 scenario. -/
def c6RemoteTicker : Ticker :=
  { timestamp := 2, bid := 7, ask := 8, last := 7, baseVolume := 2,
    quoteVolume := 14 }

/-- State holding only the local ticker for market AAA/BBB. -/
def c6State : ExchangeState :=
  { simulation := true, lockdown := false, forceAutoCancel := false
    fee := 1/1000, fiatCurrency := "BBB"
    reserves := [], minDealAmounts := []
    cancelledOrders := [], closedOrders := [], openOrders := []
    balances := [], tickers := [("AAA/BBB", c6LocalTicker)]
    orderBooks := [], trades := [] }

theorem lmerge_find?_of_not_mem (snap : List (String × Ticker)) (k : String)
    (hk : Smap.find? snap k = none) :
    ∀ base, Smap.find? (lmerge base snap) k = Smap.find? base k := by
  induction snap with
  | nil => intro base; rfl
  | cons kv rest ih =>
    intro base
    have hne : kv.1 ≠ k := by
      intro h
      rw [Smap.find?, if_pos h] at hk
      exact Option.noConfusion hk
    have hrest : Smap.find? rest k = none := by
      rwa [Smap.find?, if_neg hne] at hk
    calc Smap.find? (lmerge (Smap.insert base kv.1 kv.2) rest) k
        = Smap.find? (Smap.insert base kv.1 kv.2) k := ih hrest _
      _ = Smap.find? base k := Smap.find?_insert_ne _ _ _ _ hne

end Exchange

open Exchange in
/-- C6 is false as stated: with a local ticker for AAA/BBB and a
successfully fetched snapshot covering only the requested market CCC/DDD,
the call succeeds and the local AAA/BBB entry is gone afterwards - the
source assigns `_state.tickers = tickers` before the merge, so the merge
merges the snapshot into itself and local-only entries are dropped. -/
theorem syncTickers_overwrites_counterexample :
    (syncTickers true c6State ["CCC/DDD"] [("CCC/DDD", c6RemoteTicker)]).1 =
      true ∧
    Smap.find? c6State.tickers "AAA/BBB" = some c6LocalTicker ∧
    Smap.find?
      (syncTickers true c6State ["CCC/DDD"]
        [("CCC/DDD", c6RemoteTicker)]).2.tickers "AAA/BBB" = none := by
  refine ⟨by decide, by decide, by decide⟩

open Exchange in
/-- C6 (amended): a successful `syncTickers` call with a remote exchange
attached succeeds exactly when every requested market is in the fetched
snapshot, and it REPLACES the local ticker map by the snapshot: every
market with no snapshot entry - in particular every local-only market -
has no ticker afterwards. -/
theorem syncTickers_replaces_local_map (s : ExchangeState)
    (markets : List String) (fetched : List (String × Ticker)) :
    ((syncTickers true s markets fetched).1 = true ↔
      ∀ m ∈ markets, (Smap.find? fetched m).isSome = true) ∧
    ((syncTickers true s markets fetched).1 = true →
      ∀ k, Smap.find? fetched k = none →
        Smap.find? (syncTickers true s markets fetched).2.tickers k = none) := by
  have hunfold : syncTickers true s markets fetched =
      (if markets.any (fun m => (Smap.find? fetched m).isNone) then (false, s)
       else (true, { s with tickers := lmerge fetched fetched })) := by
    rw [syncTickers]
    simp
  constructor
  · rw [hunfold]
    by_cases h : markets.any (fun m => (Smap.find? fetched m).isNone)
    · rw [if_pos h]
      simp only [List.any_eq_true, Option.isNone_iff_eq_none] at h
      obtain ⟨m, hm, hnone⟩ := h
      constructor
      · intro hfalse
        exact absurd hfalse (by simp)
      · intro hall
        have := hall m hm
        rw [hnone] at this
        exact absurd this (by simp)
    · rw [if_neg h]
      simp only [List.any_eq_true, Option.isNone_iff_eq_none, not_exists,
        not_and] at h
      constructor
      · intro _ m hm
        have := h m hm
        simpa [Option.isSome_iff_exists, Option.ne_none_iff_exists'] using this
      · intro _
        rfl
  · rw [hunfold]
    by_cases h : markets.any (fun m => (Smap.find? fetched m).isNone)
    · rw [if_pos h]
      intro hfalse
      exact absurd hfalse (by simp)
    · rw [if_neg h]
      intro _ k hk
      simpa [lmerge_find?_of_not_mem fetched k hk fetched] using hk

open Exchange in
/-- Witness for C6 (amended): at the concrete scenario the call succeeds
and the local-only ticker is gone. -/
theorem syncTickers_replaces_local_map_witness :
    Smap.find?
      (syncTickers true c6State ["CCC/DDD"]
        [("CCC/DDD", c6RemoteTicker)]).2.tickers "ZZZ/BBB" = none :=
  (syncTickers_replaces_local_map c6State ["CCC/DDD"]
    [("CCC/DDD", c6RemoteTicker)]).2 (by decide) "ZZZ/BBB" (by decide)

/-! ## Claim (C7): computeQuote never crosses the mid price -/

namespace MarketModel

/-- Degenerate input of the C7 counterexample: `sigma = 0` makes the sanity
check fail while the mid price is 100. -/
noncomputable def c7Degenerate : MarketModelParameters :=
  { sigma := 0, mu := 0, gamma := 1, buy := { A := 1, k := 1 },
    sell := { A := 1, k := 1 }, midPrice := 100, inventory := 0,
    includeDrift := false }

/-- Regular input used by the C7 witness. -/
noncomputable def c7Regular : MarketModelParameters :=
  { sigma := 1, mu := 0, gamma := 1, buy := { A := 1, k := 1 },
    sell := { A := 1, k := 1 }, midPrice := 100, inventory := 2,
    includeDrift := true }

end MarketModel

open MarketModel in
/-- C7 is false as stated over all inputs: when the sanity check fails
(here `sigma = 0`) the source returns `{bid: 0, ask: 0}`, and with
`midPrice = 100` the returned ask lies strictly below the mid price. -/
theorem computeQuote_crosses_mid_counterexample :
    (computeQuote c7Degenerate).2 < c7Degenerate.midPrice := by
  rw [computeQuote, if_pos (Or.inl (by simp [c7Degenerate]))]
  simp [c7Degenerate]

open MarketModel in
/-- C7 (amended): whenever the sanity check passes - none of sigma, gamma
and the four A/k parameters is zero - `computeQuote` returns a bid at most
the mid price and an ask at least the mid price; when the check fails it
returns `{bid: 0, ask: 0}` instead, which violates the claim for a
positive mid price. -/
theorem computeQuote_never_crosses_mid (p : MarketModelParameters)
    (h1 : p.sigma ≠ 0) (h2 : p.gamma ≠ 0) (h3 : p.buy.A ≠ 0)
    (h4 : p.buy.k ≠ 0) (h5 : p.sell.A ≠ 0) (h6 : p.sell.k ≠ 0) :
    (computeQuote p).1 ≤ p.midPrice ∧ p.midPrice ≤ (computeQuote p).2 := by
  rw [computeQuote, if_neg (by push_neg; exact ⟨h1, h2, h3, h4, h5, h6⟩)]
  exact ⟨min_le_left _ _, le_max_left _ _⟩

open MarketModel in
/-- Witness for C7 (amended) at a concrete regular input. -/
theorem computeQuote_never_crosses_mid_witness :
    (computeQuote c7Regular).1 ≤ c7Regular.midPrice ∧
      c7Regular.midPrice ≤ (computeQuote c7Regular).2 :=
  computeQuote_never_crosses_mid c7Regular (by norm_num [c7Regular])
    (by norm_num [c7Regular]) (by norm_num [c7Regular])
    (by norm_num [c7Regular]) (by norm_num [c7Regular])
    (by norm_num [c7Regular])

/-! ## Claim (C8): the drawdown guard -/

/-- The effective maximum drawdown `maxDrawdown || 0.2` (a zero or missing
configuration value falls back to the default 0.2). -/
def effectiveMaxDrawdown (agent : AgentModel) : ℚ :=
  match agent.maxDrawdown with
  | none => 1/5
  | some m => if m = 0 then 1/5 else m

/-- C8: when a total balance is available, `checkDrawdown` raises the peak
to `max(total, peak || 0)`, and whenever the drawdown
`(peak - total)/peak` strictly exceeds the effective maximum drawdown it
pauses the agent and posts a `max_drawdown_reached` event carrying the
updated peak and the current total. -/
theorem checkDrawdown_pauses_and_posts (agent : AgentModel) (total : ℚ) :
    (checkDrawdown agent (some total)).1.peakMarketAmount =
      some (jmax total (agent.peakMarketAmount.getD 0)) ∧
    (effectiveMaxDrawdown agent <
        (jmax total (agent.peakMarketAmount.getD 0) - total) /
          jmax total (agent.peakMarketAmount.getD 0) →
      (checkDrawdown agent (some total)).1.paused = true ∧
      (checkDrawdown agent (some total)).2 =
        [⟨jmax total (agent.peakMarketAmount.getD 0), total⟩]) := by
  have hdef : checkDrawdown agent (some total) =
      (if effectiveMaxDrawdown agent <
          (jmax total (agent.peakMarketAmount.getD 0) - total) /
            jmax total (agent.peakMarketAmount.getD 0) then
        ({ agent with
            peakMarketAmount := some (jmax total (agent.peakMarketAmount.getD 0)),
            paused := true },
         [⟨jmax total (agent.peakMarketAmount.getD 0), total⟩])
      else
        ({ agent with
            peakMarketAmount :=
              some (jmax total (agent.peakMarketAmount.getD 0)) }, [])) := by
    rw [checkDrawdown, effectiveMaxDrawdown]
  rw [hdef]
  by_cases h : effectiveMaxDrawdown agent <
      (jmax total (agent.peakMarketAmount.getD 0) - total) /
        jmax total (agent.peakMarketAmount.getD 0)
  · rw [if_pos h]
    exact ⟨rfl, fun _ => ⟨rfl, rfl⟩⟩
  · rw [if_neg h]
    exact ⟨rfl, fun hc => absurd hc h⟩

/-- Witness for C8: the S6 scenario - peak 1000, total 700,
maxDrawdown 0.2 - pauses the agent and posts the event with peak 1000 and
current total 700. -/
theorem checkDrawdown_pauses_and_posts_witness :
    (checkDrawdown ⟨some 1000, some (1/5), false⟩ (some 700)).1.paused = true ∧
    (checkDrawdown ⟨some 1000, some (1/5), false⟩ (some 700)).2 =
      [⟨1000, 700⟩] := by
  have h := (checkDrawdown_pauses_and_posts ⟨some 1000, some (1/5), false⟩ 700).2
    (by norm_num [effectiveMaxDrawdown, jmax])
  have hpeak : jmax (700 : ℚ) ((some (1000 : ℚ)).getD 0) = 1000 := by
    norm_num [jmax]
  rw [hpeak] at h
  exact h

/-! ## Claim (C9): update throws when the ticker is missing -/

namespace Exchange

theorem checkFullfillOrder_tickers (s : ExchangeState) (now : ℤ)
    (c : Option Candle) (o : Order) :
    (checkFullfillOrder s now c o).tickers = s.tickers := by
  rw [checkFullfillOrder.eq_def]
  repeat' split
  all_goals rfl

theorem fulfillLimitOrders_tickers (s : ExchangeState) (now : ℤ)
    (candles : String → Option Candle) (market : Option String) :
    (fulfillLimitOrders s now candles market).tickers = s.tickers := by
  rw [fulfillLimitOrders]
  generalize getOpenOrders s market none (fun o => o.type = OrderType.limit) = l
  induction l generalizing s with
  | nil => rfl
  | cons o rest ih =>
    rw [List.foldl_cons, ih, checkFullfillOrder_tickers]

end Exchange

open Exchange in
/-- C9: with lockdown off in simulation (where `syncOrders` always
succeeds), when no ticker is stored under the given market key - in
particular always when the market argument is omitted, since the lookup
then uses the `undefined` key - `update` throws from the unconditional
ticker lookup at the start of the auto-cancel step rather than completing
or returning `false`. -/
theorem update_throws_on_missing_ticker (s : ExchangeState) (now : ℤ)
    (candles : String → Option Candle) (idGen : ℕ → String)
    (market : Option String)
    (hld : s.lockdown = false)
    (hticker : getTickerOpt s market = none) :
    update s now candles idGen market =
      .error "Unable to retrieve ticker for market" := by
  rw [update, if_neg (by simp [hld])]
  have h1 : getTickerOpt
      (if s.simulation = true then fulfillLimitOrders s now candles market else s)
      market = none := by
    split
    · cases market with
      | none => rfl
      | some m =>
        simpa [getTickerOpt, fulfillLimitOrders_tickers] using hticker
    · exact hticker
  have h2 : autoCancelOrders
      (if s.simulation = true then fulfillLimitOrders s now candles market else s)
      now market = .error "Unable to retrieve ticker for market" := by
    rw [autoCancelOrders.eq_def, h1]
  dsimp only
  rw [h2]

open Exchange in
/-- Witness for C9: calling `update` with the market argument omitted on
the S1 state throws. -/
theorem update_throws_on_missing_ticker_witness :
    update s1State 0 (fun _ => none) (fun _ => "fresh") none =
      .error "Unable to retrieve ticker for market" :=
  update_throws_on_missing_ticker s1State 0 (fun _ => none) (fun _ => "fresh")
    none rfl rfl

/-! ## Sticky-order helper lemmas (claims C3 and C10) -/

theorem jmin_eq_left {a b : ℚ} (h : a ≤ b) : jmin a b = a := if_pos h

theorem jmin_eq_right {a b : ℚ} (h : b ≤ a) : jmin a b = b := by
  rw [jmin]
  split
  · exact le_antisymm ‹_› h
  · rfl

namespace Exchange

/-- State produced by the success path of `cancelOrder` (the body after the
two rejection guards). -/
def cancelStateAfter (s : ExchangeState) (now : ℤ) (o : Order) : ExchangeState :=
  let quoteC := quoteCurrency o.market
  let baseC := baseCurrency o.market
  let s1 :=
    if o.side = .buy then release s quoteC (o.price * o.amount)
    else release s baseC o.amount
  let order1 := if 0 < o.filled
    then { o with timestampClosed := some now } else o
  { s1 with
      cancelledOrders := Smap.insert s1.cancelledOrders o.id order1
      closedOrders := if 0 < o.filled
        then Smap.insert s1.closedOrders o.id order1
        else s1.closedOrders
      openOrders := Smap.erase s1.openOrders o.id }

theorem cancelOrder_eq_ok (s : ExchangeState) (now : ℤ) (o : Order)
    (hld : s.lockdown = false) (hst : o.status = "open") :
    cancelOrder s now o = .ok (cancelStateAfter s now o) := by
  rw [cancelOrder, if_neg (by simp [hld]), if_neg (by simp [hst])]
  rfl

theorem cancelStateAfter_tickers (s : ExchangeState) (now : ℤ) (o : Order) :
    (cancelStateAfter s now o).tickers = s.tickers := by
  rw [cancelStateAfter]
  dsimp only
  split <;> rfl

theorem cancelStateAfter_lockdown (s : ExchangeState) (now : ℤ) (o : Order) :
    (cancelStateAfter s now o).lockdown = s.lockdown := by
  rw [cancelStateAfter]
  dsimp only
  split <;> rfl

theorem cancelStateAfter_fee (s : ExchangeState) (now : ℤ) (o : Order) :
    (cancelStateAfter s now o).fee = s.fee := by
  rw [cancelStateAfter]
  dsimp only
  split <;> rfl

theorem cancelStateAfter_minDealAmounts (s : ExchangeState) (now : ℤ)
    (o : Order) :
    (cancelStateAfter s now o).minDealAmounts = s.minDealAmounts := by
  rw [cancelStateAfter]
  dsimp only
  split <;> rfl

theorem cancelStateAfter_openOrders (s : ExchangeState) (now : ℤ) (o : Order) :
    (cancelStateAfter s now o).openOrders =
      Smap.erase (if o.side = .buy
        then release s (quoteCurrency o.market) (o.price * o.amount)
        else release s (baseCurrency o.market) o.amount).openOrders o.id := by
  rw [cancelStateAfter]

theorem release_openOrders (s : ExchangeState) (c : String) (a : ℚ) :
    (release s c a).openOrders = s.openOrders := rfl

theorem cancelStateAfter_reserves (s : ExchangeState) (now : ℤ) (o : Order) :
    (cancelStateAfter s now o).reserves = s.reserves := by
  rw [cancelStateAfter]
  dsimp only
  split <;> rfl

theorem cancelStateAfter_forceAutoCancel (s : ExchangeState) (now : ℤ)
    (o : Order) :
    (cancelStateAfter s now o).forceAutoCancel = s.forceAutoCancel := by
  rw [cancelStateAfter]
  dsimp only
  split <;> rfl

theorem getMinDealAmount_congr (s s' : ExchangeState) (m : String)
    (h : s'.minDealAmounts = s.minDealAmounts) :
    getMinDealAmount s' m = getMinDealAmount s m := by
  unfold getMinDealAmount
  rw [h]

theorem balFree_congr (s s' : ExchangeState) (c : String)
    (h1 : s'.balances = s.balances) (h2 : s'.reserves = s.reserves) :
    balFree s' c = balFree s c := by
  unfold balFree rawBal reserveOf
  rw [h1, h2]

/-- Success path of `createOrder` for a limit buy with an explicit price
and enough exposed free quote balance so that the clamp is inactive. -/
theorem createOrder_limit_buy_ok (s : ExchangeState) (now : ℤ) (newId : String)
    (market : String) (amt p : ℚ) (ac : Option ℤ) (acfp : ℚ) (t : Ticker)
    (ht : Smap.find? s.tickers market = some t)
    (hld : s.lockdown = false)
    (hfac : acTruthy ac = true ∨ s.forceAutoCancel = false)
    (hamt : 0 < amt) (hp : 0 < p)
    (hfunds : p * amt ≤ balFree s (quoteCurrency market)) :
    createOrder s now newId
      { market := market, type := .limit, side := .buy, amount := amt
        price := some p, autoCancel := ac
        autoCancelAtFillPercentage := some acfp
        autoCancelAtPriceLevel := none, sticky := some true } =
      .ok ({ reserve s (quoteCurrency market) (amt * p) with
               openOrders := Smap.insert s.openOrders newId
                 { id := newId, timestamp := now, timestampClosed := none
                   status := "open", market := market, type := .limit
                   side := .buy, price := p, amount := amt, fee := amt * s.fee
                   filled := 0, remaining := amt, autoCancel := ac
                   autoCancelAtFillPercentage := acfp
                   autoCancelAtPriceLevel := ⊤, sticky := true } },
           { id := newId, timestamp := now, timestampClosed := none
             status := "open", market := market, type := .limit, side := .buy
             price := p, amount := amt, fee := amt * s.fee, filled := 0
             remaining := amt, autoCancel := ac
             autoCancelAtFillPercentage := acfp
             autoCancelAtPriceLevel := ⊤, sticky := true }) := by
  rw [createOrder.eq_def, ht]
  dsimp only
  rw [if_neg (by simp [hld])]
  rw [if_neg (by
    rintro ⟨hn, hf⟩
    rcases hfac with h | h
    · exact hn h
    · rw [h] at hf
      exact Bool.noConfusion hf)]
  have hlm : ¬ (OrderType.limit = OrderType.market) := by decide
  simp only [hlm, if_false, ite_false, Option.getD_some, eq_self_iff_true,
    if_true, ite_true]
  rw [if_neg (not_le.mpr hamt), if_neg (not_le.mpr hp)]
  rw [jmin_eq_left hfunds, mul_div_cancel_left₀ amt (ne_of_gt hp)]
  rfl

/-- Success path of `createOrder` for a limit sell with an explicit price
and enough exposed free base balance so that the clamp is inactive. -/
theorem createOrder_limit_sell_ok (s : ExchangeState) (now : ℤ) (newId : String)
    (market : String) (amt p : ℚ) (ac : Option ℤ) (acfp : ℚ) (t : Ticker)
    (ht : Smap.find? s.tickers market = some t)
    (hld : s.lockdown = false)
    (hfac : acTruthy ac = true ∨ s.forceAutoCancel = false)
    (hamt : 0 < amt) (hp : 0 < p)
    (hfunds : amt ≤ balFree s (baseCurrency market)) :
    createOrder s now newId
      { market := market, type := .limit, side := .sell, amount := amt
        price := some p, autoCancel := ac
        autoCancelAtFillPercentage := some acfp
        autoCancelAtPriceLevel := none, sticky := some true } =
      .ok ({ reserve s (baseCurrency market) amt with
               openOrders := Smap.insert s.openOrders newId
                 { id := newId, timestamp := now, timestampClosed := none
                   status := "open", market := market, type := .limit
                   side := .sell, price := p, amount := amt, fee := amt * s.fee
                   filled := 0, remaining := amt, autoCancel := ac
                   autoCancelAtFillPercentage := acfp
                   autoCancelAtPriceLevel := ((0 : ℚ) : WithTop ℚ)
                   sticky := true } },
           { id := newId, timestamp := now, timestampClosed := none
             status := "open", market := market, type := .limit, side := .sell
             price := p, amount := amt, fee := amt * s.fee, filled := 0
             remaining := amt, autoCancel := ac
             autoCancelAtFillPercentage := acfp
             autoCancelAtPriceLevel := ((0 : ℚ) : WithTop ℚ)
             sticky := true }) := by
  rw [createOrder.eq_def, ht]
  dsimp only
  rw [if_neg (by simp [hld])]
  rw [if_neg (by
    rintro ⟨hn, hf⟩
    rcases hfac with h | h
    · exact hn h
    · rw [h] at hf
      exact Bool.noConfusion hf)]
  have hlm : ¬ (OrderType.limit = OrderType.market) := by decide
  have hbs : ¬ (OrderSide.sell = OrderSide.buy) := by decide
  simp only [hlm, hbs, if_false, ite_false, Option.getD_some, eq_self_iff_true,
    if_true, ite_true]
  rw [if_neg (not_le.mpr hamt), if_neg (not_le.mpr hp)]
  rw [jmin_eq_right hfunds]
  rfl

theorem cancelStateAfter_balances (s : ExchangeState) (now : ℤ) (o : Order) :
    (cancelStateAfter s now o).balances =
      (if o.side = .buy
        then release s (quoteCurrency o.market) (o.price * o.amount)
        else release s (baseCurrency o.market) o.amount).balances := by
  rw [cancelStateAfter]

/-- Replacement order created by a sticky reprice at price `np` for an
order with residual auto-cancel budget `acv - (now - o.timestamp)`. -/
def stickyReplacement (s : ExchangeState) (now : ℤ) (newId : String)
    (o : Order) (np : ℚ) (acv : ℤ) : Order :=
  { id := newId, timestamp := now, timestampClosed := none, status := "open"
    market := o.market, type := .limit, side := o.side, price := np
    amount := o.remaining, fee := o.remaining * s.fee, filled := 0
    remaining := o.remaining, autoCancel := some (acv - (now - o.timestamp))
    autoCancelAtFillPercentage := o.autoCancelAtFillPercentage
    autoCancelAtPriceLevel := if o.side = .buy then ⊤ else ((0 : ℚ) : WithTop ℚ)
    sticky := true }

theorem reserve_cancelledOrders (s : ExchangeState) (c : String) (a : ℚ) :
    (reserve s c a).cancelledOrders = s.cancelledOrders := rfl

/-- Replace path of `_updateStickyOrder` for a buy order: under the listed
side conditions the order is cancelled, dropped from `cancelledOrders`,
and a sticky limit replacement for the remaining amount at the new price
is open under the fresh id. -/
theorem updateStickyOrder_replace_buy (s : ExchangeState) (now : ℤ)
    (newId : String) (o : Order) (t : Ticker) (acv : ℤ)
    (hside : o.side = .buy)
    (hsticky : o.sticky = true)
    (hstatus : o.status = "open")
    (hld : s.lockdown = false)
    (ht : Smap.find? s.tickers o.market = some t)
    (hnp : ¬ o.price =
      stickyNewPrice t ((Smap.find? s.orderBooks o.market).getD ⟨[], []⟩) o)
    (hac : o.autoCancel = some acv)
    (hacz : acv ≠ 0)
    (hbudget : 0 < acv - (now - o.timestamp))
    (hmin : getMinDealAmount s o.market ≤ o.remaining)
    (hrem : 0 < o.remaining)
    (hprice : 0 <
      stickyNewPrice t ((Smap.find? s.orderBooks o.market).getD ⟨[], []⟩) o)
    (hid : newId ≠ o.id)
    (hfunds :
      stickyNewPrice t ((Smap.find? s.orderBooks o.market).getD ⟨[], []⟩) o *
          o.remaining ≤
        balFree (release s (quoteCurrency o.market) (o.price * o.amount))
          (quoteCurrency o.market)) :
    (updateStickyOrder s now newId o).toOption.map (fun s3 =>
        (Smap.find? s3.cancelledOrders o.id,
         Smap.find? s3.openOrders newId,
         Smap.find? s3.openOrders o.id)) =
      some (none,
        some (stickyReplacement s now newId o
          (stickyNewPrice t ((Smap.find? s.orderBooks o.market).getD ⟨[], []⟩) o)
          acv),
        none) := by
  rw [updateStickyOrder.eq_def]
  rw [if_neg (by simp [hsticky]), ht]
  dsimp only
  rw [if_neg hnp]
  rw [cancelOrder_eq_ok s now o hld hstatus]
  dsimp only
  rw [hac]
  have hacT : acTruthy (some acv) = true := by
    simp [acTruthy, hacz]
  simp only [hacT, eq_self_iff_true, if_true, ite_true, Option.map_some',
    Option.getD_some]
  split
  case isFalse hcond =>
    exfalso
    apply hcond
    refine ⟨Or.inr hbudget, ?_⟩
    rw [getMinDealAmount_congr s _ o.market
      (by exact cancelStateAfter_minDealAmounts s now o)]
    exact hmin
  case isTrue hcond =>
    rw [hside]
    rw [createOrder_limit_buy_ok _ now newId o.market o.remaining _ _
      o.autoCancelAtFillPercentage t
      (by
        show Smap.find? (cancelStateAfter s now o).tickers o.market = some t
        rw [cancelStateAfter_tickers]
        exact ht)
      (by
        show (cancelStateAfter s now o).lockdown = false
        rw [cancelStateAfter_lockdown]
        exact hld)
      (Or.inl (by simp [acTruthy]; exact ne_of_gt hbudget))
      hrem hprice
      (by
        rw [balFree_congr
          (release s (quoteCurrency o.market) (o.price * o.amount)) _
          (quoteCurrency o.market)
          (by
            show (cancelStateAfter s now o).balances = _
            rw [cancelStateAfter_balances, if_pos hside])
          (by
            show (cancelStateAfter s now o).reserves = _
            rw [cancelStateAfter_reserves]
            rfl)]
        exact hfunds)]
    dsimp only [Except.toOption, Option.map_some']
    refine congrArg some ?_
    refine Prod.ext ?_ (Prod.ext ?_ ?_)
    · show Smap.find?
        (Smap.erase (cancelStateAfter s now o).cancelledOrders o.id) o.id = none
      exact Smap.find?_erase_self _ _
    · show Smap.find? (Smap.insert _ newId _) newId = some _
      rw [Smap.find?_insert_self]
      refine congrArg some ?_
      show Order.mk _ _ _ _ _ _ _ _ _ _ _ _ _ _ _ _ = stickyReplacement _ _ _ _ _ _
      rw [stickyReplacement]
      simp only [hside, eq_self_iff_true, if_true, ite_true]
      rw [cancelStateAfter_fee]
    · show Smap.find? (Smap.insert _ newId _) o.id = none
      rw [Smap.find?_insert_ne _ _ _ _ hid]
      show Smap.find?
        (Smap.erase (if o.side = OrderSide.buy
          then release s (quoteCurrency o.market) (o.price * o.amount)
          else release s (baseCurrency o.market) o.amount).openOrders o.id)
        o.id = none
      exact Smap.find?_erase_self _ _

/-- Replace path of `_updateStickyOrder` for a sell order, symmetric to
the buy case. -/
theorem updateStickyOrder_replace_sell (s : ExchangeState) (now : ℤ)
    (newId : String) (o : Order) (t : Ticker) (acv : ℤ)
    (hside : o.side = .sell)
    (hsticky : o.sticky = true)
    (hstatus : o.status = "open")
    (hld : s.lockdown = false)
    (ht : Smap.find? s.tickers o.market = some t)
    (hnp : ¬ o.price =
      stickyNewPrice t ((Smap.find? s.orderBooks o.market).getD ⟨[], []⟩) o)
    (hac : o.autoCancel = some acv)
    (hacz : acv ≠ 0)
    (hbudget : 0 < acv - (now - o.timestamp))
    (hmin : getMinDealAmount s o.market ≤ o.remaining)
    (hrem : 0 < o.remaining)
    (hprice : 0 <
      stickyNewPrice t ((Smap.find? s.orderBooks o.market).getD ⟨[], []⟩) o)
    (hid : newId ≠ o.id)
    (hfunds : o.remaining ≤
        balFree (release s (baseCurrency o.market) o.amount)
          (baseCurrency o.market)) :
    (updateStickyOrder s now newId o).toOption.map (fun s3 =>
        (Smap.find? s3.cancelledOrders o.id,
         Smap.find? s3.openOrders newId,
         Smap.find? s3.openOrders o.id)) =
      some (none,
        some (stickyReplacement s now newId o
          (stickyNewPrice t ((Smap.find? s.orderBooks o.market).getD ⟨[], []⟩) o)
          acv),
        none) := by
  rw [updateStickyOrder.eq_def]
  rw [if_neg (by simp [hsticky]), ht]
  dsimp only
  rw [if_neg hnp]
  rw [cancelOrder_eq_ok s now o hld hstatus]
  dsimp only
  rw [hac]
  have hacT : acTruthy (some acv) = true := by
    simp [acTruthy, hacz]
  simp only [hacT, eq_self_iff_true, if_true, ite_true, Option.map_some',
    Option.getD_some]
  split
  case isFalse hcond =>
    exfalso
    apply hcond
    refine ⟨Or.inr hbudget, ?_⟩
    rw [getMinDealAmount_congr s _ o.market
      (by exact cancelStateAfter_minDealAmounts s now o)]
    exact hmin
  case isTrue hcond =>
    rw [hside]
    rw [createOrder_limit_sell_ok _ now newId o.market o.remaining _ _
      o.autoCancelAtFillPercentage t
      (by
        show Smap.find? (cancelStateAfter s now o).tickers o.market = some t
        rw [cancelStateAfter_tickers]
        exact ht)
      (by
        show (cancelStateAfter s now o).lockdown = false
        rw [cancelStateAfter_lockdown]
        exact hld)
      (Or.inl (by simp [acTruthy]; exact ne_of_gt hbudget))
      hrem hprice
      (by
        rw [balFree_congr
          (release s (baseCurrency o.market) o.amount) _
          (baseCurrency o.market)
          (by
            show (cancelStateAfter s now o).balances = _
            rw [cancelStateAfter_balances, if_neg (by simp [hside])])
          (by
            show (cancelStateAfter s now o).reserves = _
            rw [cancelStateAfter_reserves]
            rfl)]
        exact hfunds)]
    dsimp only [Except.toOption, Option.map_some']
    refine congrArg some ?_
    refine Prod.ext ?_ (Prod.ext ?_ ?_)
    · show Smap.find?
        (Smap.erase (cancelStateAfter s now o).cancelledOrders o.id) o.id = none
      exact Smap.find?_erase_self _ _
    · show Smap.find? (Smap.insert _ newId _) newId = some _
      rw [Smap.find?_insert_self]
      refine congrArg some ?_
      show Order.mk _ _ _ _ _ _ _ _ _ _ _ _ _ _ _ _ = stickyReplacement _ _ _ _ _ _
      rw [stickyReplacement]
      simp only [hside, eq_self_iff_true, if_true, ite_true,
        show ¬ (OrderSide.sell = OrderSide.buy) from (by decide), if_false,
        ite_false]
      rw [cancelStateAfter_fee]
    · show Smap.find? (Smap.insert _ newId _) o.id = none
      rw [Smap.find?_insert_ne _ _ _ _ hid]
      show Smap.find?
        (Smap.erase (if o.side = OrderSide.buy
          then release s (quoteCurrency o.market) (o.price * o.amount)
          else release s (baseCurrency o.market) o.amount).openOrders o.id)
        o.id = none
      exact Smap.find?_erase_self _ _

/-- No-op path of `_updateStickyOrder`: when the recomputed target price
equals the order's current price, the state is returned unchanged. -/
theorem updateStickyOrder_noop (s : ExchangeState) (now : ℤ) (newId : String)
    (o : Order) (t : Ticker)
    (hsticky : o.sticky = true)
    (ht : Smap.find? s.tickers o.market = some t)
    (heq : o.price =
      stickyNewPrice t ((Smap.find? s.orderBooks o.market).getD ⟨[], []⟩) o) :
    updateStickyOrder s now newId o = .ok s := by
  rw [updateStickyOrder.eq_def]
  rw [if_neg (by simp [hsticky]), ht]
  dsimp only
  rw [if_pos heq]

end Exchange

/-! ## Claim (C3): sticky-order repricing for buy orders -/

open Exchange in
/-- C3: for a sticky open buy order, the target price is the second-best
bid exactly when the order is the sole best bid (`remaining >= bestAmount`
and `price = bestPrice`, with at least two book levels) and the ticker's
current best bid otherwise; when the target equals the current price the
sticky update leaves the state untouched; and otherwise - provided the
remaining amount is at least the minimum deal amount, the residual
auto-cancel budget is positive, and the usual positivity/funds side
conditions hold - the order is cancelled, removed from `cancelledOrders`,
and a sticky limit replacement with the same side, the remaining amount
and the new price is open under the fresh id (the sell case is
symmetric, see the sell helper lemma). -/
theorem sticky_buy_update_spec :
    (∀ (t : Ticker) (book : OrderBook) (o : Order) (b0p b0a b1p b1a : ℚ)
        (rest : List (ℚ × ℚ)),
        o.side = .buy →
        book.bids = (b0p, b0a) :: (b1p, b1a) :: rest →
        stickyNewPrice t book o =
          if b0a ≤ o.remaining ∧ o.price = b0p then b1p else t.bid) ∧
    (∀ (s : ExchangeState) (now : ℤ) (newId : String) (o : Order) (t : Ticker),
        o.sticky = true →
        Smap.find? s.tickers o.market = some t →
        o.price = stickyNewPrice t
          ((Smap.find? s.orderBooks o.market).getD ⟨[], []⟩) o →
        updateStickyOrder s now newId o = .ok s) ∧
    (∀ (s : ExchangeState) (now : ℤ) (newId : String) (o : Order) (t : Ticker)
        (acv : ℤ),
        o.side = .buy → o.sticky = true → o.status = "open" →
        s.lockdown = false →
        Smap.find? s.tickers o.market = some t →
        ¬ o.price = stickyNewPrice t
          ((Smap.find? s.orderBooks o.market).getD ⟨[], []⟩) o →
        o.autoCancel = some acv → acv ≠ 0 →
        0 < acv - (now - o.timestamp) →
        getMinDealAmount s o.market ≤ o.remaining →
        0 < o.remaining →
        0 < stickyNewPrice t
          ((Smap.find? s.orderBooks o.market).getD ⟨[], []⟩) o →
        newId ≠ o.id →
        stickyNewPrice t ((Smap.find? s.orderBooks o.market).getD ⟨[], []⟩) o *
            o.remaining ≤
          balFree (release s (quoteCurrency o.market) (o.price * o.amount))
            (quoteCurrency o.market) →
        (updateStickyOrder s now newId o).toOption.map (fun s3 =>
            (Smap.find? s3.cancelledOrders o.id,
             Smap.find? s3.openOrders newId,
             Smap.find? s3.openOrders o.id)) =
          some (none,
            some (stickyReplacement s now newId o
              (stickyNewPrice t
                ((Smap.find? s.orderBooks o.market).getD ⟨[], []⟩) o) acv),
            none)) := by
  refine ⟨?_, ?_, ?_⟩
  · intro t book o b0p b0a b1p b1a rest hside hbids
    rw [stickyNewPrice.eq_def, hside, hbids, if_pos rfl]
  · intro s now newId o t hsticky ht heq
    exact updateStickyOrder_noop s now newId o t hsticky ht heq
  · intro s now newId o t acv hside hsticky hstatus hld ht hnp hac hacz
      hbudget hmin hrem hprice hid hfunds
    exact updateStickyOrder_replace_buy s now newId o t acv hside hsticky
      hstatus hld ht hnp hac hacz hbudget hmin hrem hprice hid hfunds

/-! ## Claim (C10): a sticky reprice drops the price-level auto-cancel -/

open Exchange in
/-- C10: when a sticky order of either side is repriced under the
replacement conditions, the replacement open order carries the DEFAULT
price-level auto-cancel - top (Infinity) for a buy, 0 for a sell -
whatever `autoCancelAtPriceLevel` the original order carried, because the
replacement `createOrder` call does not pass that field. -/
theorem sticky_reprice_loses_price_level (s : ExchangeState) (now : ℤ)
    (newId : String) (o : Order) (t : Ticker) (acv : ℤ)
    (hsticky : o.sticky = true) (hstatus : o.status = "open")
    (hld : s.lockdown = false)
    (ht : Smap.find? s.tickers o.market = some t)
    (hnp : ¬ o.price = stickyNewPrice t
      ((Smap.find? s.orderBooks o.market).getD ⟨[], []⟩) o)
    (hac : o.autoCancel = some acv) (hacz : acv ≠ 0)
    (hbudget : 0 < acv - (now - o.timestamp))
    (hmin : getMinDealAmount s o.market ≤ o.remaining)
    (hrem : 0 < o.remaining)
    (hprice : 0 < stickyNewPrice t
      ((Smap.find? s.orderBooks o.market).getD ⟨[], []⟩) o)
    (hid : newId ≠ o.id)
    (hfundsBuy : o.side = .buy →
      stickyNewPrice t ((Smap.find? s.orderBooks o.market).getD ⟨[], []⟩) o *
          o.remaining ≤
        balFree (release s (quoteCurrency o.market) (o.price * o.amount))
          (quoteCurrency o.market))
    (hfundsSell : o.side = .sell →
      o.remaining ≤
        balFree (release s (baseCurrency o.market) o.amount)
          (baseCurrency o.market)) :
    (updateStickyOrder s now newId o).toOption.map (fun s3 =>
        (Smap.find? s3.openOrders newId).map (fun r =>
          (r.autoCancelAtPriceLevel, r.sticky))) =
      some (some
        ((if o.side = .buy then ⊤ else ((0 : ℚ) : WithTop ℚ)), true)) := by
  cases hside : o.side with
  | buy =>
    have h := updateStickyOrder_replace_buy s now newId o t acv hside hsticky
      hstatus hld ht hnp hac hacz hbudget hmin hrem hprice hid
      (hfundsBuy hside)
    cases hupd : updateStickyOrder s now newId o with
    | error e =>
      rw [hupd] at h
      exact Option.noConfusion h
    | ok s3 =>
      rw [hupd] at h
      simp only [Except.toOption, Option.map_some', Option.some.injEq,
        Prod.mk.injEq] at h
      obtain ⟨-, hopen, -⟩ := h
      simp only [Except.toOption, Option.map_some', hopen,
        stickyReplacement, hside]
  | sell =>
    have h := updateStickyOrder_replace_sell s now newId o t acv hside hsticky
      hstatus hld ht hnp hac hacz hbudget hmin hrem hprice hid
      (hfundsSell hside)
    cases hupd : updateStickyOrder s now newId o with
    | error e =>
      rw [hupd] at h
      exact Option.noConfusion h
    | ok s3 =>
      rw [hupd] at h
      simp only [Except.toOption, Option.map_some', Option.some.injEq,
        Prod.mk.injEq] at h
      obtain ⟨-, hopen, -⟩ := h
      simp only [Except.toOption, Option.map_some', hopen,
        stickyReplacement, hside]

namespace Exchange

/-- Sticky open buy order of the C3 witness scenario: buy 2 at 100, half
filled, auto-cancel 10000 ms. -/
def c3Order : Order :=
  { id := "stick1", timestamp := 0, timestampClosed := none
    status := "open", market := "BTC/USDT", type := .limit, side := .buy
    price := 100, amount := 2, fee := 0, filled := 1, remaining := 1
    autoCancel := some 10000, autoCancelAtFillPercentage := 1
    autoCancelAtPriceLevel := ⊤, sticky := true }

/-- Order book of the C3 witness: our order is the sole best bid at 100,
second-best bid 99. -/
def c3Book : OrderBook := ⟨[(100, 1), (99, 5)], []⟩

/-- State of the C3 witness scenario. -/
def c3State : ExchangeState :=
  { simulation := true, lockdown := false, forceAutoCancel := false
    fee := 0, fiatCurrency := "USDT"
    reserves := [], minDealAmounts := []
    cancelledOrders := [], closedOrders := []
    openOrders := [("stick1", c3Order)]
    balances := [("USDT", { free := 0, used := 200 })]
    tickers := [("BTC/USDT", sampleTicker)]
    orderBooks := [("BTC/USDT", c3Book)], trades := [] }

/-- Sticky open sell order of the C10 witness scenario, carrying a
non-default price-level auto-cancel of 50. -/
def c10Order : Order :=
  { id := "stick2", timestamp := 0, timestampClosed := none
    status := "open", market := "BTC/USDT", type := .limit, side := .sell
    price := 100, amount := 1, fee := 0, filled := 0, remaining := 1
    autoCancel := some 10000, autoCancelAtFillPercentage := 1
    autoCancelAtPriceLevel := ((50 : ℚ) : WithTop ℚ), sticky := true }

/-- Order book of the C10 witness: our order is the sole best ask at 100,
second-best ask 101. -/
def c10Book : OrderBook := ⟨[], [(100, 1), (101, 5)]⟩

/-- State of the C10 witness scenario. -/
def c10State : ExchangeState :=
  { simulation := true, lockdown := false, forceAutoCancel := false
    fee := 0, fiatCurrency := "USDT"
    reserves := [], minDealAmounts := []
    cancelledOrders := [], closedOrders := []
    openOrders := [("stick2", c10Order)]
    balances := [("BTC", { free := 0, used := 1 })]
    tickers := [("BTC/USDT", sampleTicker)]
    orderBooks := [("BTC/USDT", c10Book)], trades := [] }

end Exchange

open Exchange in
/-- Witness for C3: the replace branch at the concrete buy scenario (sole
best bid at 100 repriced to the second-best bid 99). -/
theorem sticky_buy_update_spec_witness :
    (updateStickyOrder c3State 1000 "newstick" c3Order).toOption.map (fun s3 =>
        (Smap.find? s3.cancelledOrders c3Order.id,
         Smap.find? s3.openOrders "newstick",
         Smap.find? s3.openOrders c3Order.id)) =
      some (none,
        some (stickyReplacement c3State 1000 "newstick" c3Order
          (stickyNewPrice sampleTicker
            ((Smap.find? c3State.orderBooks c3Order.market).getD ⟨[], []⟩)
            c3Order) 10000),
        none) := by
  have hq : quoteCurrency "BTC/USDT" = "USDT" := by decide
  refine sticky_buy_update_spec.2.2 c3State 1000 "newstick" c3Order
    sampleTicker 10000 rfl rfl rfl rfl (by decide) (by decide) rfl
    (by decide) (by decide) (by decide) (by decide) (by decide) (by decide)
    ?_
  have hnp99 : stickyNewPrice sampleTicker
      ((Smap.find? c3State.orderBooks c3Order.market).getD ⟨[], []⟩) c3Order =
      99 := by decide
  rw [hnp99]
  show (99 : ℚ) * c3Order.remaining ≤ _
  norm_num [c3Order, c3State, hq, release, setBal, balFree, rawBal, reserveOf,
    jmin, jmax, Smap.find?, Smap.insert]

open Exchange in
/-- Witness for C10: the concrete sell scenario - the original order
carries `autoCancelAtPriceLevel = 50`, the replacement carries the sell
default 0. -/
theorem sticky_reprice_loses_price_level_witness :
    (updateStickyOrder c10State 1000 "newstick" c10Order).toOption.map
        (fun s3 => (Smap.find? s3.openOrders "newstick").map (fun r =>
          (r.autoCancelAtPriceLevel, r.sticky))) =
      some (some
        ((if c10Order.side = .buy then ⊤ else ((0 : ℚ) : WithTop ℚ)), true)) := by
  have hb : baseCurrency "BTC/USDT" = "BTC" := by decide
  refine sticky_reprice_loses_price_level c10State 1000 "newstick" c10Order
    sampleTicker 10000 rfl rfl rfl (by decide) (by decide) rfl (by decide)
    (by decide) (by decide) (by decide) (by decide) (by decide)
    (fun h => absurd h (by decide)) ?_
  intro _
  show c10Order.remaining ≤ _
  norm_num [c10Order, c10State, hb, release, setBal, balFree, rawBal,
    reserveOf, jmin, jmax, Smap.find?, Smap.insert]

end CrystalBot
